import Mathlib

/-!
Shallow embedding of the mcp-router core (src/router) and proofs of the
specification claims about it.

Conventions of the embedding:
* Python `datetime` timestamps and `timedelta` durations are modelled as `Int`
  (seconds); `datetime.now()` becomes an explicit `now : Int` argument threaded
  through every operation that reads the clock.
* Mutable objects become explicit state passing: a Python method that mutates
  `self` and returns `r` becomes a Lean function returning `r × NewState`.
* Fallible code (Python `raise`) returns `Except`.
* External I/O (subprocess stdout, the Ollama HTTP API, the backend HTTP POST)
  is modelled by explicit "outcome" parameters describing what the external
  world did; the code's handling of each outcome is translated from the source.
-/

/- ============================================================ -/
/- src/router/circuit_breaker.py                                -/
/- ============================================================ -/

/-- Circuit breaker states (`class State(Enum)` in src/router/circuit_breaker.py). -/
inductive CBState where
  | CLOSED
  | OPEN
  | HALF_OPEN
deriving DecidableEq, Repr

/-- `class CircuitBreaker` fields. `failures` is a count (Nat); the threshold is
a Nat as well (the Python `int` default is 3; a non-positive Python threshold
behaves exactly like threshold 0 in the guard `failures >= threshold`, since
`failures` is never negative). `recovery_timeout` keeps Python int seconds as
`Int`; `last_failure` / `last_success` are optional timestamps. -/
structure CircuitBreaker where
  name : String
  state : CBState
  failures : Nat
  failure_threshold : Nat
  recovery_timeout : Int
  last_failure : Option Int
  last_success : Option Int
deriving DecidableEq, Repr

/-- `CircuitBreaker.__init__(name, failure_threshold=3, recovery_timeout=30)`. -/
def CircuitBreaker.init (name : String) (failure_threshold : Nat := 3)
    (recovery_timeout : Int := 30) : CircuitBreaker :=
  { name := name
    state := CBState.CLOSED
    failures := 0
    failure_threshold := failure_threshold
    recovery_timeout := recovery_timeout
    last_failure := none
    last_success := none }

/-- `CircuitBreaker.record_success` (lines 45-49). -/
def CircuitBreaker.record_success (b : CircuitBreaker) (now : Int) : CircuitBreaker :=
  { b with failures := 0, state := CBState.CLOSED, last_success := some now }

/-- `CircuitBreaker.record_failure` (lines 51-57): increment, stamp, and open
when the new count reaches the threshold. -/
def CircuitBreaker.record_failure (b : CircuitBreaker) (now : Int) : CircuitBreaker :=
  let b1 := { b with failures := b.failures + 1, last_failure := some now }
  if b1.failures ≥ b1.failure_threshold then { b1 with state := CBState.OPEN } else b1

/-- `CircuitBreaker.can_execute` (lines 59-76). Returns the boolean result and
the (possibly transitioned) breaker. In the source the OPEN branch tests
`self.last_failure and datetime.now() - self.last_failure > self.recovery_timeout`;
a `datetime` is always truthy, so the test is: a last failure exists and strictly
more than `recovery_timeout` has elapsed since it. -/
def CircuitBreaker.can_execute (b : CircuitBreaker) (now : Int) : Bool × CircuitBreaker :=
  match b.state with
  | CBState.CLOSED => (true, b)
  | CBState.OPEN =>
    match b.last_failure with
    | some lf =>
      if now - lf > b.recovery_timeout then
        (true, { b with state := CBState.HALF_OPEN })
      else
        (false, b)
    | none => (false, b)
  | CBState.HALF_OPEN => (true, b)

/-- `CircuitBreaker.reset` (lines 93-97). -/
def CircuitBreaker.reset (b : CircuitBreaker) : CircuitBreaker :=
  { b with failures := 0, state := CBState.CLOSED, last_failure := none }

/-- One externally invokable breaker operation, with its clock reading where the
source reads the clock. `exec` is a `can_execute()` call (whose boolean result
is returned to the caller; only the state effect matters for reachability). -/
inductive BreakerOp where
  | success (t : Int)
  | failure (t : Int)
  | exec (t : Int)
  | reset
deriving DecidableEq, Repr

/-- Effect of one operation on the breaker state. -/
def CircuitBreaker.applyOp (b : CircuitBreaker) (op : BreakerOp) : CircuitBreaker :=
  match op with
  | BreakerOp.success t => b.record_success t
  | BreakerOp.failure t => b.record_failure t
  | BreakerOp.exec t => (b.can_execute t).2
  | BreakerOp.reset => b.reset

/-- Run a sequence of operations from a given breaker. -/
def CircuitBreaker.runOps (b : CircuitBreaker) (ops : List BreakerOp) : CircuitBreaker :=
  ops.foldl CircuitBreaker.applyOp b

/-- Apply `record_failure` once per timestamp in the list, in order. -/
def CircuitBreaker.applyFailures (b : CircuitBreaker) (ts : List Int) : CircuitBreaker :=
  ts.foldl CircuitBreaker.record_failure b

/- ============================================================ -/
/- src/router/models.py                                         -/
/- ============================================================ -/

/-- A JSON-RPC id: Python type `int | str` (with absence modelled separately as
`Option RpcId`). -/
inductive RpcId where
  | num (n : Int)
  | str (s : String)
deriving DecidableEq, Repr

/-- `class JSONRPCError` (code, message, data). The `data` payload is opaque to
every claim; it is kept as the structured values the registry actually puts
there. -/
inductive ErrorData where
  | available (servers : List String)
  | breakerState (b : CircuitBreaker)
deriving DecidableEq, Repr

/-- `class JSONRPCError`: code (int), message, optional data. -/
structure JSONRPCError where
  code : Int
  message : String
  data : Option ErrorData := none
deriving DecidableEq, Repr

/-- `class JSONRPCRequest`. `params` is an arbitrary JSON object never
inspected by the routed path; it is modelled opaquely as a string. -/
structure JSONRPCRequest where
  jsonrpc : String := "2.0"
  method : String
  params : String := ""
  id : Option RpcId := none
deriving DecidableEq, Repr

/-- `class JSONRPCResponse`. `result` is an arbitrary JSON payload never
inspected by the registry; modelled opaquely as a string. -/
structure JSONRPCResponse where
  jsonrpc : String := "2.0"
  result : Option String := none
  error : Option JSONRPCError := none
  id : Option RpcId := none
deriving DecidableEq, Repr

/-- `class ErrorCode` constants. -/
def ErrorCode.PARSE_ERROR : Int := -32700
def ErrorCode.INVALID_REQUEST : Int := -32600
def ErrorCode.SERVER_ERROR : Int := -32000
def ErrorCode.TIMEOUT : Int := -32001
def ErrorCode.UPSTREAM_ERROR : Int := -32002

/-- `class ServerConfig`. -/
structure ServerConfig where
  transport : String
  url : Option String := none
  command : Option (List String) := none
  health_endpoint : Option String := none
deriving DecidableEq, Repr

/-- A JSON object on the wire (a subprocess stdout line, or an HTTP response
body) as far as `JSONRPCResponse(**response)` consumes it: each JSON-RPC field
either present or absent. Pydantic fills absent fields with the model defaults
(`jsonrpc="2.0"`, `result=None`, `error=None`, `id=None`). -/
structure WireResponse where
  jsonrpc : Option String := none
  result : Option String := none
  error : Option JSONRPCError := none
  id : Option RpcId := none
deriving DecidableEq, Repr

/-- `JSONRPCResponse(**response)`: construct the pydantic model from a decoded
JSON object, absent keys taking the field defaults. -/
def WireResponse.toResponse (w : WireResponse) : JSONRPCResponse :=
  { jsonrpc := w.jsonrpc.getD "2.0"
    result := w.result
    error := w.error
    id := w.id }

/- ============================================================ -/
/- src/router/adapters/stdio.py                                 -/
/- ============================================================ -/

/-- What the subprocess read in `StdioAdapter.call` produced:
`line` — `readline` returned a line that decoded to a JSON object;
`badJson` — a line that failed `json.loads`;
`closed` — an empty read (child closed the pipe);
`timeout` — `asyncio.wait_for` expired. -/
inductive ReadOutcome where
  | line (resp : WireResponse)
  | badJson
  | closed
  | timeout
deriving DecidableEq, Repr

/-- The exceptions `StdioAdapter.call` / `_restart` can raise, with the message
text from the source. -/
inductive AdapterError where
  | maxRestarts (name : String) (max_restarts : Nat)
  | notAvailable (name : String)
  | closedConnection (name : String)
  | invalidResponse (name : String)
  | timedOut (name : String)
deriving DecidableEq, Repr

/-- `str(e)` for the adapter exceptions (the f-string messages in the source;
`_restart`'s ceiling message drops the numeric detail of the parenthesis — the
claims only inspect error codes, never message text). -/
def AdapterError.message : AdapterError → String
  | AdapterError.maxRestarts name _ => "Server " ++ name ++ " exceeded max restarts"
  | AdapterError.notAvailable name => "Server " ++ name ++ " not available"
  | AdapterError.closedConnection name => "Server " ++ name ++ " closed connection"
  | AdapterError.invalidResponse name => "Invalid response from " ++ name
  | AdapterError.timedOut name => "STDIO server " ++ name ++ " timed out"

/-- `class StdioAdapter` state. The subprocess handle is abstracted to
`running : Bool` (= `is_healthy()`: a process exists and its returncode is
unset). `next_id` is the next value of the `itertools.count(1)` generator.
`start()` is modelled as the spawn succeeding (the claims about the adapter
presuppose a spawnable command). -/
structure StdioAdapter where
  name : String
  timeout : Int := 30
  max_restarts : Nat := 3
  restart_count : Nat := 0
  running : Bool := false
  next_id : Nat := 1
deriving DecidableEq, Repr

/-- `StdioAdapter.is_healthy` (lines 171-173). -/
def StdioAdapter.is_healthy (a : StdioAdapter) : Bool := a.running

/-- `StdioAdapter._restart` (lines 141-154): fail permanently at the ceiling,
otherwise stop, increment the counter, and start again. -/
def StdioAdapter.restart (a : StdioAdapter) : Except AdapterError StdioAdapter :=
  if a.restart_count ≥ a.max_restarts then
    Except.error (AdapterError.maxRestarts a.name a.max_restarts)
  else
    Except.ok { a with restart_count := a.restart_count + 1, running := true }

/-- `StdioAdapter.call` (lines 89-139), for one request with the given read
outcome. Returns the decoded response (or the raised exception) together with
the adapter state after the call. Control flow from the source:
1. under the lock, if unhealthy, `_restart()` (its exception propagates);
2. assign `request["id"]` from the generator when absent or None;
3. write the request line, then read one line with the timeout;
4. `timeout` → `_restart()` then raise `TimeoutError` (a restart failure at
   the ceiling raises `RuntimeError` instead); empty read → `RuntimeError`;
   bad JSON → `RuntimeError`; otherwise return the decoded object. -/
def StdioAdapter.call (a : StdioAdapter) (reqId : Option RpcId)
    (outcome : ReadOutcome) : Except AdapterError WireResponse × StdioAdapter :=
  match (if a.is_healthy then Except.ok a else a.restart) with
  | Except.error e => (Except.error e, a)
  | Except.ok a1 =>
    -- after a successful start the process and its pipes exist
    let a2 := if reqId = none then { a1 with next_id := a1.next_id + 1 } else a1
    match outcome with
    | ReadOutcome.line resp => (Except.ok resp, a2)
    | ReadOutcome.badJson => (Except.error (AdapterError.invalidResponse a2.name), a2)
    | ReadOutcome.closed => (Except.error (AdapterError.closedConnection a2.name), a2)
    | ReadOutcome.timeout =>
      match a2.restart with
      | Except.ok a3 => (Except.error (AdapterError.timedOut a3.name), a3)
      | Except.error e => (Except.error e, a2)

/- ============================================================ -/
/- src/router/registry.py                                       -/
/- ============================================================ -/

/-- Association-list lookup standing in for Python dict lookup (only equality
of string keys matters to the claims). -/
def assocFind {α : Type} (xs : List (String × α)) (k : String) : Option α :=
  match xs with
  | [] => none
  | (k2, v) :: rest => if k2 = k then some v else assocFind rest k

/-- Dict update `d[k] = v`: replace the value of an existing key in place, or
append a new binding. -/
def assocPut {α : Type} (xs : List (String × α)) (k : String) (v : α) :
    List (String × α) :=
  match xs with
  | [] => [(k, v)]
  | (k2, v2) :: rest =>
    if k2 = k then (k2, v) :: rest else (k2, v2) :: assocPut rest k v

/-- `class ServerRegistry` state: server catalogue, stdio adapters, and the
per-server circuit breakers (the `CircuitBreakerRegistry` with its default
threshold 3 and recovery timeout 30). The shared HTTP client is abstracted
away (constructed registries hold one; `_call_http` outcomes are supplied
explicitly). -/
structure ServerRegistry where
  servers : List (String × ServerConfig)
  stdio_adapters : List (String × StdioAdapter)
  breakers : List (String × CircuitBreaker)
deriving DecidableEq, Repr

/-- `CircuitBreakerRegistry.get` (circuit_breaker.py lines 118-133): lazily
materialize a breaker per server with the registry defaults (3, 30). -/
def ServerRegistry.breakersGet (reg : ServerRegistry) (server : String) :
    CircuitBreaker × ServerRegistry :=
  match assocFind reg.breakers server with
  | some b => (b, reg)
  | none =>
    let b := CircuitBreaker.init server 3 30
    (b, { reg with breakers := assocPut reg.breakers server b })

/-- Store back an updated breaker for a server. -/
def ServerRegistry.setBreaker (reg : ServerRegistry) (server : String)
    (b : CircuitBreaker) : ServerRegistry :=
  { reg with breakers := assocPut reg.breakers server b }

/-- Store back an updated stdio adapter for a server. -/
def ServerRegistry.setAdapter (reg : ServerRegistry) (server : String)
    (a : StdioAdapter) : ServerRegistry :=
  { reg with stdio_adapters := assocPut reg.stdio_adapters server a }

/-- `ServerRegistry.list_servers` (lines 79-81). -/
def ServerRegistry.list_servers (reg : ServerRegistry) : List String :=
  reg.servers.map Prod.fst

/-- What the backend HTTP POST in `_call_http` produced: a decoded JSON body
from a 2xx response, or a raised `httpx` error / non-2xx `raise_for_status`
(collapsed to the exception message the registry stringifies). -/
inductive HttpOutcome where
  | ok (body : WireResponse)
  | failure (msg : String)
deriving DecidableEq, Repr

/-- `ServerRegistry._call_stdio` (lines 145-156): look up the adapter (raising
when missing), delegate to `adapter.call(request.model_dump())`, and wrap the
returned dict in `JSONRPCResponse(**response)`. The raised exceptions are
returned as `Except.error` messages (`str(e)` as the caller sees them). -/
def ServerRegistry.call_stdio (reg : ServerRegistry) (server : String)
    (req : JSONRPCRequest) (outcome : ReadOutcome) :
    Except String JSONRPCResponse × ServerRegistry :=
  match assocFind reg.stdio_adapters server with
  | none => (Except.error ("STDIO adapter not initialized for " ++ server), reg)
  | some adapter =>
    match adapter.call req.id outcome with
    | (Except.ok w, a2) => (Except.ok w.toResponse, reg.setAdapter server a2)
    | (Except.error e, a2) => (Except.error e.message, reg.setAdapter server a2)

/-- `ServerRegistry._call_http` (lines 158-177): require a configured URL
(the shared HTTP client exists on a constructed registry), POST the request,
raise on non-2xx, and wrap the decoded body in `JSONRPCResponse(**...)`. -/
def ServerRegistry.call_http (server : String) (config : ServerConfig)
    (outcome : HttpOutcome) : Except String JSONRPCResponse :=
  match config.url with
  | none => Except.error ("No URL configured for " ++ server)
  | some _ =>
    match outcome with
    | HttpOutcome.ok body => Except.ok body.toResponse
    | HttpOutcome.failure msg => Except.error msg

/-- `ServerRegistry.call` (lines 87-143):
1. unknown server → synthesized `INVALID_REQUEST` error with the known names;
2. breaker admission via `can_execute()` (whose OPEN→HALF_OPEN side effect is
   kept even on rejection) → `SERVER_ERROR` with the breaker status on refusal;
3. dispatch by transport; success records breaker success and returns the
   transport's response unchanged; any exception records breaker failure and
   becomes an `UPSTREAM_ERROR` response carrying `str(e)`.
`now` is the clock reading for the breaker calls; `so` / `ho` describe what the
stdio subprocess / HTTP backend did when that transport is consulted. -/
def ServerRegistry.call (reg : ServerRegistry) (server : String)
    (req : JSONRPCRequest) (now : Int) (so : ReadOutcome) (ho : HttpOutcome) :
    JSONRPCResponse × ServerRegistry :=
  match assocFind reg.servers server with
  | none =>
    ({ error := some { code := ErrorCode.INVALID_REQUEST
                       message := "Unknown server: " ++ server
                       data := some (ErrorData.available reg.list_servers) }
       id := req.id },
     reg)
  | some config =>
    let bg := reg.breakersGet server
    let ce := bg.1.can_execute now
    let breaker1 := ce.2
    let reg2 := bg.2.setBreaker server breaker1
    if ¬ ce.1 then
      ({ error := some { code := ErrorCode.SERVER_ERROR
                         message := "Server " ++ server ++ " circuit breaker open"
                         data := some (ErrorData.breakerState breaker1) }
         id := req.id },
       reg2)
    else
      let dispatched :=
        if config.transport = "stdio" then
          reg2.call_stdio server req so
        else
          (ServerRegistry.call_http server config ho, reg2)
      match dispatched with
      | (Except.ok resp, reg3) =>
        (resp, reg3.setBreaker server (breaker1.record_success now))
      | (Except.error msg, reg3) =>
        ({ error := some { code := ErrorCode.UPSTREAM_ERROR, message := msg }
           id := req.id },
         reg3.setBreaker server (breaker1.record_failure now))

/- ============================================================ -/
/- src/router/cache.py (L1 layer)                               -/
/- ============================================================ -/

/-- `@dataclass CacheEntry`. `created_at` (a wall-clock default never read by
any routed path) is omitted from the model; `hits` starts at 0. -/
structure CacheEntry where
  prompt : String
  response : String
  model : String
  hits : Nat := 0
deriving DecidableEq, Repr

/-- `class PromptCache`, L1 layer. The `OrderedDict` becomes a list of
key-entry pairs in insertion/recency order, oldest first (`popitem(last=False)`
pops the head, `move_to_end` moves a binding to the tail). The key is
`_hash_prompt(prompt)`, the first 16 hex characters of SHA-256 over the prompt;
the model uses the prompt itself as the key, i.e. treats the hash as injective
(the spec documents collisions as negligible and unresolved). The L2/Qdrant
layer is disabled here (`qdrant_url=None`), exactly the configuration the
claims address; `get` is the `embedding=None` path, which never consults L2. -/
structure PromptCache where
  max_size : Nat := 1000
  entries : List (String × CacheEntry) := []
  l1_hits : Nat := 0
  l1_misses : Nat := 0
  total_entries : Nat := 0
deriving DecidableEq, Repr

/-- Remove the binding of a key from an ordered dict (keys are unique in a
Python dict, so removing the first occurrence is removal). -/
def odRemove (xs : List (String × CacheEntry)) (k : String) :
    List (String × CacheEntry) :=
  match xs with
  | [] => []
  | (k2, v) :: rest => if k2 = k then rest else (k2, v) :: odRemove rest k

/-- `PromptCache.get` (lines 140-178), `embedding=None` path: on an L1 hit,
move the entry to the most-recently-used end, bump its `hits` and `l1_hits`,
and return it; on a miss bump `l1_misses` and return `None` (the L2 block is
guarded by `embedding is not None` and is skipped). -/
def PromptCache.get (c : PromptCache) (prompt : String) :
    Option CacheEntry × PromptCache :=
  match assocFind c.entries prompt with
  | some e =>
    let e2 := { e with hits := e.hits + 1 }
    (some e2,
     { c with entries := odRemove c.entries prompt ++ [(prompt, e2)]
              l1_hits := c.l1_hits + 1 })
  | none => (none, { c with l1_misses := c.l1_misses + 1 })

/-- `PromptCache.put` (lines 217-247), L1 effect: build the fresh entry, pop
the least-recently-used binding when `len(cache) >= max_size`, then assign
`cache[hash] = entry` (replacing in place when the key survives eviction,
appending otherwise), and refresh `stats.total_entries`. (`popitem` on an
empty dict raises `KeyError`; that corner — a full cache of capacity 0 — is
outside every claim, and `List.tail []` stands in for it.) -/
def PromptCache.put (c : PromptCache) (prompt response model : String) :
    PromptCache :=
  let entry : CacheEntry := { prompt := prompt, response := response, model := model }
  let es := if c.entries.length ≥ c.max_size then c.entries.tail else c.entries
  let es2 := assocPut es prompt entry
  { c with entries := es2, total_entries := es2.length }

/- ============================================================ -/
/- src/router/middleware/enhance.py                             -/
/- ============================================================ -/

/-- `class EnhancementRule` (models.py): enabled flag, model, system prompt. -/
structure EnhancementRule where
  enabled : Bool := true
  model : String
  system_prompt : String := ""
deriving DecidableEq, Repr

/-- `MODEL_LIMITS` table (enhance.py lines 20-28). -/
def MODEL_LIMITS : List (String × Nat) :=
  [("llama3.2:3b", 128000),
   ("llama3", 8000),
   ("deepseek-r1:14b", 64000),
   ("deepseek-r1", 64000),
   ("qwen2.5-coder:7b", 128000),
   ("phi3:mini", 128000),
   ("nomic-embed-text", 8000)]

/-- `EnhancementMiddleware._check_context_limit` (lines 239-246):
`len(prompt) // 4 < MODEL_LIMITS.get(model, 8000) * 0.9`. The source computes
`limit * 0.9` in IEEE-754 doubles; for every limit in `MODEL_LIMITS` and for
the default 8000 that product is exactly the rational `9 * limit / 10`
(8000 ↦ 7200.0, 64000 ↦ 57600.0, 128000 ↦ 115200.0, all exact), so the
comparison is equivalent to the integer comparison
`10 * estimated_tokens < 9 * limit` used here. `len(prompt)` counts Unicode
code points, as `String.length` does. -/
def check_context_limit (prompt : String) (model : String) : Bool :=
  let estimated_tokens := prompt.length / 4
  let limit := (assocFind MODEL_LIMITS model).getD 8000
  10 * estimated_tokens < 9 * limit

/-- The candidate list built at the top of `_call_ollama` (lines 185-191):
`[rule.model]` extended with the fallback-chain entries that are not `None`
and differ from `rule.model` (the `extend` is guarded by the chain being
non-empty, which changes nothing when it is empty). -/
def modelsToTry (ruleModel : String) (fallback_chain : List (Option String)) :
    List String :=
  ruleModel :: (fallback_chain.filterMap id).filter (fun m => m ≠ ruleModel)

/-- What one `POST /api/generate` for a given model did: an `httpx.HTTPError`
(network failure or `raise_for_status`) with its message, or a 2xx JSON body
whose `"response"` field is `some text` or absent. -/
inductive GenOutcome where
  | httpError (msg : String)
  | ok (response : Option String)
deriving DecidableEq, Repr

/-- Python `str.strip()` with no argument: remove whitespace from both ends.
Modelled on the character list (`Char.isWhitespace` covers the ASCII
whitespace that appears in model output; the exotic Unicode spaces Python
additionally strips are irrelevant to every claim). -/
def pyStrip (s : String) : String :=
  String.mk (((s.data.dropWhile Char.isWhitespace).reverse.dropWhile
    Char.isWhitespace).reverse)

/-- The candidate loop of `_call_ollama` (lines 193-237): skip a model whose
context check fails; on an HTTP error remember it as `last_error` and continue;
on success return `result.get("response", prompt).strip()` (`pyStrip` here).
When the loop exhausts the candidates, re-raise the last error if any, else
return the prompt. -/
def callOllamaLoop (gen : String → GenOutcome) (prompt : String)
    (models : List String) (last_error : Option String) : Except String String :=
  match models with
  | [] =>
    match last_error with
    | some e => Except.error e
    | none => Except.ok prompt
  | m :: rest =>
    if check_context_limit prompt m then
      match gen m with
      | GenOutcome.httpError e => callOllamaLoop gen prompt rest (some e)
      | GenOutcome.ok r => Except.ok (pyStrip (r.getD prompt))
    else
      callOllamaLoop gen prompt rest last_error

/-- `EnhancementMiddleware._call_ollama` (lines 175-237): build the candidate
list, then run the loop with no error remembered yet. `gen` describes what the
Ollama service did for each model it was asked. -/
def call_ollama (gen : String → GenOutcome) (prompt : String)
    (rule : EnhancementRule) (fallback_chain : List (Option String)) :
    Except String String :=
  callOllamaLoop gen prompt (modelsToTry rule.model fallback_chain) none

/-- The dict returned by `EnhancementMiddleware.enhance`. The `skipped` and
`error` keys are present only on the disabled / all-failed paths; an absent
`skipped` key is modelled as `false`, an absent `error` key as `none`. -/
structure EnhanceResult where
  original : String
  enhanced : String
  model : Option String
  cached : Bool
  skipped : Bool := false
  error : Option String := none
deriving DecidableEq, Repr

/-- `EnhancementMiddleware.enhance` (lines 105-173), with `rule` the result of
`get_rule(client)` and `fallback_chain` from the loaded config:
1. disabled rule → pass-through with `skipped=true`, no side effect;
2. cache probe (L1, no embedding); a hit returns the entry with `cached=true`;
3. on a miss, `_call_ollama`; success caches the result under the original
   prompt with `rule.model` and returns it with `cached=false` and
   `model=rule.model`; an exception degrades to the original prompt with an
   `error` field (and no cache write). -/
def enhance (gen : String → GenOutcome) (cache : PromptCache)
    (rule : EnhancementRule) (fallback_chain : List (Option String))
    (prompt : String) : EnhanceResult × PromptCache :=
  if rule.enabled = false then
    ({ original := prompt, enhanced := prompt, model := none, cached := false
       skipped := true },
     cache)
  else
    match cache.get prompt with
    | (some entry, cache1) =>
      ({ original := prompt, enhanced := entry.response
         model := some entry.model, cached := true },
       cache1)
    | (none, cache1) =>
      match call_ollama gen prompt rule fallback_chain with
      | Except.ok enhanced =>
        ({ original := prompt, enhanced := enhanced
           model := some rule.model, cached := false },
         cache1.put prompt enhanced rule.model)
      | Except.error e =>
        ({ original := prompt, enhanced := prompt
           model := some rule.model, cached := false, error := some e },
         cache1)

/- ============================================================ -/
/- Helper lemmas: circuit breaker                               -/
/- ============================================================ -/

theorem record_failure_failures (b : CircuitBreaker) (t : Int) :
    (b.record_failure t).failures = b.failures + 1 := by
  simp only [CircuitBreaker.record_failure]
  split <;> rfl

theorem record_failure_threshold (b : CircuitBreaker) (t : Int) :
    (b.record_failure t).failure_threshold = b.failure_threshold := by
  simp only [CircuitBreaker.record_failure]
  split <;> rfl

theorem record_failure_open_of_threshold (b : CircuitBreaker) (t : Int)
    (h : b.failure_threshold ≤ b.failures + 1) :
    (b.record_failure t).state = CBState.OPEN := by
  simp only [CircuitBreaker.record_failure]
  rw [if_pos h]

theorem applyFailures_cons (b : CircuitBreaker) (t : Int) (ts : List Int) :
    CircuitBreaker.applyFailures b (t :: ts) =
      CircuitBreaker.applyFailures (b.record_failure t) ts := rfl

theorem applyFailures_failures (ts : List Int) :
    ∀ b : CircuitBreaker,
      (CircuitBreaker.applyFailures b ts).failures = b.failures + ts.length := by
  induction ts with
  | nil => intro b; simp [CircuitBreaker.applyFailures]
  | cons t ts ih =>
    intro b
    rw [applyFailures_cons, ih, record_failure_failures]
    simp
    omega

theorem applyFailures_open (ts : List Int) :
    ∀ b : CircuitBreaker, ts ≠ [] →
      b.failure_threshold ≤ b.failures + ts.length →
      (CircuitBreaker.applyFailures b ts).state = CBState.OPEN := by
  induction ts with
  | nil => intro b hne; exact absurd rfl hne
  | cons t ts ih =>
    intro b _ hle
    rw [applyFailures_cons]
    match ts, ih with
    | [], _ =>
      simpa [CircuitBreaker.applyFailures] using
        record_failure_open_of_threshold b t (by simpa using hle)
    | t2 :: ts2, ih =>
      exact ih (b.record_failure t) (by simp)
        (by rw [record_failure_failures, record_failure_threshold]; simp at hle ⊢; omega)

/-- State invariant for claim C9: whenever the breaker is OPEN or HALF_OPEN,
the failure counter has reached the threshold. -/
def BreakerInv (b : CircuitBreaker) : Prop :=
  (b.state = CBState.OPEN ∨ b.state = CBState.HALF_OPEN) →
    b.failure_threshold ≤ b.failures

theorem applyOp_inv (b : CircuitBreaker) (op : BreakerOp) (h : BreakerInv b) :
    BreakerInv (b.applyOp op) := by
  cases op with
  | success t =>
    intro hst
    simp [CircuitBreaker.applyOp, CircuitBreaker.record_success] at hst
  | failure t =>
    intro hst
    rw [CircuitBreaker.applyOp] at hst ⊢
    rw [record_failure_threshold, record_failure_failures]
    simp only [CircuitBreaker.record_failure] at hst
    by_cases hc : b.failures + 1 ≥ b.failure_threshold
    · omega
    · rw [if_neg hc] at hst
      exact le_trans (h hst) (Nat.le_succ _)
  | exec t =>
    obtain ⟨nm, st, f, th, rt, lf, ls⟩ := b
    intro hst
    simp only [CircuitBreaker.applyOp, CircuitBreaker.can_execute] at hst ⊢
    cases st with
    | CLOSED => simp at hst
    | HALF_OPEN => exact h (Or.inr rfl)
    | OPEN =>
      cases lf with
      | none => exact h (Or.inl rfl)
      | some lfv =>
        dsimp only at hst ⊢
        by_cases hc : t - lfv > rt
        · rw [if_pos hc]; exact h (Or.inl rfl)
        · rw [if_neg hc]; exact h (Or.inl rfl)
  | reset =>
    intro hst
    simp [CircuitBreaker.applyOp, CircuitBreaker.reset] at hst

theorem runOps_inv (ops : List BreakerOp) :
    ∀ b : CircuitBreaker, BreakerInv b →
      BreakerInv (CircuitBreaker.runOps b ops) := by
  induction ops with
  | nil => intro b h; exact h
  | cons op ops ih =>
    intro b h
    exact ih (b.applyOp op) (applyOp_inv b op h)

theorem applyOp_threshold (b : CircuitBreaker) (op : BreakerOp) :
    (b.applyOp op).failure_threshold = b.failure_threshold := by
  cases op with
  | success t => rfl
  | failure t => exact record_failure_threshold b t
  | exec t =>
    obtain ⟨nm, st, f, th, rt, lf, ls⟩ := b
    simp only [CircuitBreaker.applyOp, CircuitBreaker.can_execute]
    cases st with
    | CLOSED => rfl
    | HALF_OPEN => rfl
    | OPEN =>
      cases lf with
      | none => rfl
      | some lfv =>
        dsimp only
        by_cases hc : t - lfv > rt
        · rw [if_pos hc]
        · rw [if_neg hc]
  | reset => rfl

theorem runOps_threshold (ops : List BreakerOp) :
    ∀ b : CircuitBreaker,
      (CircuitBreaker.runOps b ops).failure_threshold = b.failure_threshold := by
  induction ops with
  | nil => intro b; rfl
  | cons op ops ih =>
    intro b
    rw [show CircuitBreaker.runOps b (op :: ops) =
          CircuitBreaker.runOps (b.applyOp op) ops from rfl,
        ih, applyOp_threshold]

/- ============================================================ -/
/- Claim C3                                                     -/
/- ============================================================ -/

/-- C3: for every breaker in state OPEN with `last_failure` set, `can_execute`
returns false (leaving the breaker unchanged) whenever the elapsed time since
the last failure is at most `recovery_timeout`; the first call strictly after
`recovery_timeout` has elapsed returns true and moves the state to HALF_OPEN;
and the transition happens on exactly that one call — once in HALF_OPEN every
further `can_execute` returns true with no further state change. -/
theorem c3_open_recovery (b : CircuitBreaker) (lf : Int)
    (hs : b.state = CBState.OPEN) (hlf : b.last_failure = some lf) :
    (∀ now : Int, now - lf ≤ b.recovery_timeout → b.can_execute now = (false, b)) ∧
    (∀ now : Int, b.recovery_timeout < now - lf →
      (b.can_execute now).1 = true ∧
      (b.can_execute now).2.state = CBState.HALF_OPEN ∧
      ∀ now2 : Int,
        ((b.can_execute now).2).can_execute now2 = (true, (b.can_execute now).2)) := by
  constructor
  · intro now h
    simp only [CircuitBreaker.can_execute, hs, hlf]
    rw [if_neg (by omega)]
  · intro now h
    simp only [CircuitBreaker.can_execute, hs, hlf]
    rw [if_pos (by omega)]
    exact ⟨rfl, rfl, fun now2 => rfl⟩

/-- A concrete OPEN breaker (threshold 3 reached, last failure at time 100)
used to instantiate claim C3. -/
def sampleOpenBreaker : CircuitBreaker :=
  { name := "srv", state := CBState.OPEN, failures := 3, failure_threshold := 3,
    recovery_timeout := 30, last_failure := some 100, last_success := none }

/-- Witness for C3: at the breaker above, `can_execute` at time 130 (exactly
the timeout) rejects without change, and at time 131 admits, transitioning to
HALF_OPEN. -/
theorem c3_open_recovery_witness :
    sampleOpenBreaker.can_execute 130 = (false, sampleOpenBreaker) ∧
    (sampleOpenBreaker.can_execute 131).1 = true ∧
    (sampleOpenBreaker.can_execute 131).2.state = CBState.HALF_OPEN := by
  refine ⟨?_, ?_, ?_⟩
  · exact (c3_open_recovery sampleOpenBreaker 100 rfl rfl).1 130 (by norm_num [sampleOpenBreaker])
  · exact ((c3_open_recovery sampleOpenBreaker 100 rfl rfl).2 131 (by norm_num [sampleOpenBreaker])).1
  · exact ((c3_open_recovery sampleOpenBreaker 100 rfl rfl).2 131 (by norm_num [sampleOpenBreaker])).2.1

/- ============================================================ -/
/- Claim C4                                                     -/
/- ============================================================ -/

/-- C4 counterexample: the claim quantifies over every breaker, but a breaker
constructed with `failure_threshold = 0` starts CLOSED and is still CLOSED
after its "at most failure_threshold" (here zero) `record_failure` calls, so
"the breaker's state is OPEN after at most failure_threshold such calls" fails
at threshold 0: reaching OPEN always takes at least one call. -/
theorem c4_counterexample :
    (CircuitBreaker.applyFailures (CircuitBreaker.init "flaky" 0 30) []).state ≠
      CBState.OPEN := by
  decide

/-- C4 (amended): for every breaker and every sequence of `record_failure`
calls with no intervening `record_success`, the failures counter increases by
exactly one per call (hence is non-decreasing), and from the initial CLOSED
state the breaker is OPEN after `max failure_threshold 1` calls — i.e. after
at most `failure_threshold` calls whenever the threshold is at least one. -/
theorem c4_failure_monotonicity (b : CircuitBreaker) (ts : List Int)
    (name : String) (thr : Nat) (rt : Int) :
    (∀ t : Int, (b.record_failure t).failures = b.failures + 1) ∧
    ((CircuitBreaker.applyFailures b ts).failures = b.failures + ts.length) ∧
    (max thr 1 ≤ ts.length →
      (CircuitBreaker.applyFailures (CircuitBreaker.init name thr rt) ts).state =
        CBState.OPEN) := by
  refine ⟨fun t => record_failure_failures b t, applyFailures_failures ts b,
    fun h => applyFailures_open ts _ ?_ ?_⟩
  · intro hnil
    rw [hnil] at h
    simp [Nat.max_le] at h
  · simp only [CircuitBreaker.init]
    have h2 := le_max_left thr 1
    omega

/-- Witness for C4 (amended): a threshold-3 breaker is OPEN after three
consecutive failures, and the per-call increment evaluates at a concrete
breaker. -/
theorem c4_failure_monotonicity_witness :
    ((CircuitBreaker.init "flaky" 3 30).record_failure 0).failures =
      (CircuitBreaker.init "flaky" 3 30).failures + 1 ∧
    (CircuitBreaker.applyFailures (CircuitBreaker.init "flaky" 3 30) [0, 1, 2]).state =
      CBState.OPEN := by
  have h := c4_failure_monotonicity (CircuitBreaker.init "flaky" 3 30) [0, 1, 2]
    "flaky" 3 30
  exact ⟨h.1 0, h.2.2 (by decide)⟩

/- ============================================================ -/
/- Claim C9                                                     -/
/- ============================================================ -/

/-- C9: in every breaker state reachable from the initial state by any
sequence of `record_success`, `record_failure`, `can_execute` and `reset`
calls, being in HALF_OPEN implies the failures counter has reached the
threshold; consequently a single `record_failure` from HALF_OPEN always puts
the breaker in OPEN, even though `record_failure` has no explicit HALF_OPEN
branch. -/
theorem c9_half_open_failures (name : String) (thr : Nat) (rt : Int)
    (ops : List BreakerOp)
    (h : (CircuitBreaker.runOps (CircuitBreaker.init name thr rt) ops).state =
      CBState.HALF_OPEN) :
    thr ≤ (CircuitBreaker.runOps (CircuitBreaker.init name thr rt) ops).failures ∧
    ∀ t : Int,
      ((CircuitBreaker.runOps (CircuitBreaker.init name thr rt) ops).record_failure t).state =
        CBState.OPEN := by
  have hbase : BreakerInv (CircuitBreaker.init name thr rt) := by
    intro hor
    simp [CircuitBreaker.init, BreakerInv] at hor
  have hinv := runOps_inv ops (CircuitBreaker.init name thr rt) hbase (Or.inr h)
  have hthr : (CircuitBreaker.runOps (CircuitBreaker.init name thr rt) ops).failure_threshold =
      thr := by
    rw [runOps_threshold]
    rfl
  constructor
  · omega
  · intro t
    exact record_failure_open_of_threshold _ t (by omega)

/-- Witness for C9: with threshold 1, one failure at time 0 opens the breaker
and a `can_execute` probe at time 100 moves it to HALF_OPEN; the theorem then
gives `1 ≤ failures` and that a further failure at time 200 reopens it. -/
theorem c9_half_open_failures_witness :
    1 ≤ (CircuitBreaker.runOps (CircuitBreaker.init "srv" 1 30)
          [BreakerOp.failure 0, BreakerOp.exec 100]).failures ∧
    ((CircuitBreaker.runOps (CircuitBreaker.init "srv" 1 30)
        [BreakerOp.failure 0, BreakerOp.exec 100]).record_failure 200).state =
      CBState.OPEN := by
  have h := c9_half_open_failures "srv" 1 30 [BreakerOp.failure 0, BreakerOp.exec 100]
    (by decide)
  exact ⟨h.1, h.2 200⟩

/- ============================================================ -/
/- Helper lemmas: association lists                             -/
/- ============================================================ -/

theorem assocFind_assocPut_self {α : Type} (xs : List (String × α)) (k : String)
    (v : α) : assocFind (assocPut xs k v) k = some v := by
  induction xs with
  | nil => simp [assocPut, assocFind]
  | cons p rest ih =>
    obtain ⟨k2, v2⟩ := p
    by_cases hk : k2 = k
    · simp [assocPut, assocFind, hk]
    · simp [assocPut, assocFind, hk, ih]

/- ============================================================ -/
/- Claim C1                                                     -/
/- ============================================================ -/

/-- A healthy stdio adapter for the server `"s"` with no restarts consumed. -/
def sampleStdioAdapter : StdioAdapter :=
  { name := "s", timeout := 30, max_restarts := 3, restart_count := 0,
    running := true, next_id := 1 }

/-- A registry with the single stdio server `"s"`, its adapter started, and no
breaker materialized yet (so the breaker is created CLOSED on first use). -/
def sampleRegistry : ServerRegistry :=
  { servers := [("s", { transport := "stdio" })]
    stdio_adapters := [("s", sampleStdioAdapter)]
    breakers := [] }

/-- A request carrying id 1. -/
def sampleRequest : JSONRPCRequest :=
  { method := "tools/list", id := some (RpcId.num 1) }

/-- C1 counterexample: routing a request to the healthy stdio server `"s"`
whose adapter read times out yields a JSON-RPC error with code
`UPSTREAM_ERROR` (−32002), not `TIMEOUT` (−32001): `ServerRegistry.call`
catches the adapter's timeout in its blanket `except Exception` and the
`ErrorCode.TIMEOUT` constant is never used on this path (nor anywhere else in
the source). -/
theorem c1_counterexample :
    ((sampleRegistry.call "s" sampleRequest 0 ReadOutcome.timeout
        (HttpOutcome.failure "unused")).1.error.map JSONRPCError.code =
      some ErrorCode.UPSTREAM_ERROR) ∧
    ErrorCode.UPSTREAM_ERROR ≠ ErrorCode.TIMEOUT := by
  constructor
  · rfl
  · decide

/-- Behavior of `StdioAdapter.call` on a read timeout for a healthy adapter
below its restart ceiling: the subprocess is restarted (counter incremented,
process running) and the timeout error is reported. The request-id generator
advances exactly when the request carried no id. -/
theorem stdio_call_timeout (a : StdioAdapter) (reqId : Option RpcId)
    (hrun : a.running = true) (hrc : a.restart_count < a.max_restarts) :
    a.call reqId ReadOutcome.timeout =
      (Except.error (AdapterError.timedOut a.name),
       { a with next_id := if reqId = none then a.next_id + 1 else a.next_id
                restart_count := a.restart_count + 1
                running := true }) := by
  have hh : a.is_healthy = true := hrun
  cases reqId with
  | none =>
    simp only [StdioAdapter.call, hh, if_true, StdioAdapter.restart]
    rw [if_neg (by omega)]
  | some i =>
    simp only [StdioAdapter.call, hh, if_true, reduceCtorEq, if_false,
      StdioAdapter.restart]
    rw [if_neg (by omega)]

/-- `CircuitBreakerRegistry.get` never touches the stdio adapters. -/
theorem breakersGet_stdio_adapters (reg : ServerRegistry) (server : String) :
    (reg.breakersGet server).2.stdio_adapters = reg.stdio_adapters := by
  simp only [ServerRegistry.breakersGet]
  cases assocFind reg.breakers server <;> rfl

/-- C1 (amended): for every routed request to a stdio-transport server whose
adapter read times out with the restart ceiling not yet reached, the adapter
initiates a restart before the timeout is reported (its restart counter is
incremented and the subprocess is running again in the stored state), and the
caller receives a JSON-RPC error response with code `UPSTREAM_ERROR` (−32002)
— not `TIMEOUT` (−32001) — carrying the adapter's timeout message and the
request's id; the breaker records the failure. -/
theorem c1_timeout_upstream (reg : ServerRegistry) (server : String)
    (req : JSONRPCRequest) (now : Int) (ho : HttpOutcome) (cfg : ServerConfig)
    (a : StdioAdapter) (b1 : CircuitBreaker)
    (hs : assocFind reg.servers server = some cfg)
    (ht : cfg.transport = "stdio")
    (ha : assocFind reg.stdio_adapters server = some a)
    (hrun : a.running = true)
    (hrc : a.restart_count < a.max_restarts)
    (hadm : (reg.breakersGet server).1.can_execute now = (true, b1)) :
    (reg.call server req now ReadOutcome.timeout ho).1 =
      { error := some { code := ErrorCode.UPSTREAM_ERROR
                        message := AdapterError.message (AdapterError.timedOut a.name) }
        id := req.id } ∧
    (∃ a3, assocFind (reg.call server req now ReadOutcome.timeout ho).2.stdio_adapters
        server = some a3 ∧
      a3.restart_count = a.restart_count + 1 ∧ a3.running = true) ∧
    assocFind (reg.call server req now ReadOutcome.timeout ho).2.breakers server =
      some (b1.record_failure now) := by
  have hcall := stdio_call_timeout a req.id hrun hrc
  simp only [ServerRegistry.call, hs, hadm, ht, eq_self_iff_true, if_true, not_true,
    if_false, ServerRegistry.call_stdio, ServerRegistry.setBreaker,
    breakersGet_stdio_adapters, ha, hcall, ServerRegistry.setAdapter,
    AdapterError.message]
  refine ⟨trivial,
    ⟨{ a with next_id := if req.id = none then a.next_id + 1 else a.next_id
              restart_count := a.restart_count + 1
              running := true },
      assocFind_assocPut_self _ _ _, rfl, rfl⟩,
    assocFind_assocPut_self _ _ _⟩

/-- Witness for C1 (amended) at the concrete registry: the timeout comes back
as UPSTREAM_ERROR with the adapter's timeout message and the request id, and
the stored adapter has restarted once. -/
theorem c1_timeout_upstream_witness :
    (sampleRegistry.call "s" sampleRequest 0 ReadOutcome.timeout
        (HttpOutcome.failure "unused")).1 =
      { error := some { code := ErrorCode.UPSTREAM_ERROR
                        message := AdapterError.message (AdapterError.timedOut "s") }
        id := some (RpcId.num 1) } ∧
    (∃ a3, assocFind (sampleRegistry.call "s" sampleRequest 0 ReadOutcome.timeout
          (HttpOutcome.failure "unused")).2.stdio_adapters "s" = some a3 ∧
      a3.restart_count = 1 ∧ a3.running = true) := by
  have h := c1_timeout_upstream sampleRegistry "s" sampleRequest 0
    (HttpOutcome.failure "unused") { transport := "stdio" } sampleStdioAdapter
    (CircuitBreaker.init "s" 3 30) rfl rfl rfl rfl (by decide) rfl
  exact ⟨h.1, h.2.1⟩

/- ============================================================ -/
/- Claim C2                                                     -/
/- ============================================================ -/

/-- C2 counterexample: the request carries id 1, the stdio transport returns a
response object with no id field, and the caller receives a response whose id
is None — `_call_stdio` builds `JSONRPCResponse(**response)` with the pydantic
default and the registry never copies the request's id onto a transport
response. -/
theorem c2_counterexample :
    (sampleRegistry.call "s" sampleRequest 0
        (ReadOutcome.line { result := some "ok" })
        (HttpOutcome.failure "unused")).1.id = none ∧
    sampleRequest.id = some (RpcId.num 1) ∧
    (none : Option RpcId) ≠ some (RpcId.num 1) := by
  exact ⟨rfl, rfl, by decide⟩

/-- Behavior of `StdioAdapter.call` on a successful read for a healthy
adapter: the decoded object is returned unchanged; the only state effect is
the id generator advancing when the request carried no id. -/
theorem stdio_call_line (a : StdioAdapter) (reqId : Option RpcId)
    (w : WireResponse) (hrun : a.running = true) :
    a.call reqId (ReadOutcome.line w) =
      (Except.ok w, if reqId = none then { a with next_id := a.next_id + 1 } else a) := by
  have hh : a.is_healthy = true := hrun
  cases reqId with
  | none => simp only [StdioAdapter.call, hh, if_true]
  | some i => simp only [StdioAdapter.call, hh, if_true, reduceCtorEq, if_false]

/-- C2 (amended): when the transport returns a response object, the registry
hands the caller exactly `JSONRPCResponse(**response)` — the response's id is
the transport's id, and in particular None (not the request's id) when the
transport's response object contains no id field. This holds on the stdio and
the http dispatch paths alike; the registry only stamps `request.id` onto the
error responses it synthesizes itself. -/
theorem c2_id_passthrough (reg : ServerRegistry) (server : String)
    (req : JSONRPCRequest) (now : Int) (w : WireResponse) (cfg : ServerConfig)
    (b1 : CircuitBreaker)
    (hs : assocFind reg.servers server = some cfg)
    (hadm : (reg.breakersGet server).1.can_execute now = (true, b1)) :
    (∀ (a : StdioAdapter) (ho : HttpOutcome), cfg.transport = "stdio" →
      assocFind reg.stdio_adapters server = some a → a.running = true →
      (reg.call server req now (ReadOutcome.line w) ho).1 = w.toResponse) ∧
    (∀ so : ReadOutcome, cfg.transport ≠ "stdio" → cfg.url ≠ none →
      (reg.call server req now so (HttpOutcome.ok w)).1 = w.toResponse) ∧
    w.toResponse.id = w.id := by
  refine ⟨?_, ?_, rfl⟩
  · intro a ho ht ha hrun
    have hcall := stdio_call_line a req.id w hrun
    simp only [ServerRegistry.call, hs, hadm, ht, eq_self_iff_true, if_true,
      not_true, if_false, ServerRegistry.call_stdio, breakersGet_stdio_adapters,
      ha, hcall, ServerRegistry.setAdapter, ServerRegistry.setBreaker]
  · intro so hne hurl
    cases hu : cfg.url with
    | none => exact absurd hu hurl
    | some u =>
      simp only [ServerRegistry.call, hs, hadm, eq_self_iff_true, if_true,
        not_true, if_false, if_neg hne, ServerRegistry.call_http, hu,
        ServerRegistry.setBreaker]

/-- A registry with a single http server `"h"`. -/
def sampleHttpRegistry : ServerRegistry :=
  { servers := [("h", { transport := "http", url := some "http://upstream" })]
    stdio_adapters := []
    breakers := [] }

/-- Witness for C2 (amended): a stdio response with id 7 is passed through
as-is (the caller sees id 7, not the request's id 1), and an http body with no
id comes back with id None. -/
theorem c2_id_passthrough_witness :
    (sampleRegistry.call "s" sampleRequest 0
        (ReadOutcome.line { result := some "ok", id := some (RpcId.num 7) })
        (HttpOutcome.failure "unused")).1 =
      WireResponse.toResponse { result := some "ok", id := some (RpcId.num 7) } ∧
    (sampleHttpRegistry.call "h" sampleRequest 0 ReadOutcome.timeout
        (HttpOutcome.ok { result := some "ok" })).1 =
      WireResponse.toResponse { result := some "ok" } := by
  have h1 := (c2_id_passthrough sampleRegistry "s" sampleRequest 0
      { result := some "ok", id := some (RpcId.num 7) } { transport := "stdio" }
      (CircuitBreaker.init "s" 3 30) rfl rfl).1 sampleStdioAdapter
      (HttpOutcome.failure "unused") rfl rfl rfl
  have h2 := (c2_id_passthrough sampleHttpRegistry "h" sampleRequest 0
      { result := some "ok" } { transport := "http", url := some "http://upstream" }
      (CircuitBreaker.init "h" 3 30) rfl rfl).2.1 ReadOutcome.timeout
      (by decide) (by decide)
  exact ⟨h1, h2⟩

/- ============================================================ -/
/- Helper lemmas: ordered-dict model                            -/
/- ============================================================ -/

theorem assocFind_none_of_not_mem_keys (xs : List (String × CacheEntry))
    (k : String) (h : k ∉ xs.map Prod.fst) : assocFind xs k = none := by
  induction xs with
  | nil => rfl
  | cons p rest ih =>
    obtain ⟨k2, v2⟩ := p
    simp only [List.map_cons, List.mem_cons, not_or] at h
    have hne : k2 ≠ k := fun hh => h.1 hh.symm
    simp only [assocFind, if_neg hne]
    exact ih h.2

theorem assocFind_tail_none (xs : List (String × CacheEntry)) (k : String)
    (h : assocFind xs k = none) : assocFind xs.tail k = none := by
  cases xs with
  | nil => rfl
  | cons p rest =>
    obtain ⟨k2, v2⟩ := p
    simp only [assocFind] at h
    by_cases hk : k2 = k
    · rw [if_pos hk] at h; cases h
    · rw [if_neg hk] at h; exact h

theorem assocPut_append_of_none (xs : List (String × CacheEntry)) (k : String)
    (v : CacheEntry) (h : assocFind xs k = none) : assocPut xs k v = xs ++ [(k, v)] := by
  induction xs with
  | nil => rfl
  | cons p rest ih =>
    obtain ⟨k2, v2⟩ := p
    simp only [assocFind] at h
    by_cases hk : k2 = k
    · rw [if_pos hk] at h; cases h
    · rw [if_neg hk] at h
      simp only [assocPut, if_neg hk, List.cons_append]
      rw [ih h]

theorem assocFind_append_left_none (xs ys : List (String × CacheEntry))
    (k : String) (h : assocFind xs k = none) :
    assocFind (xs ++ ys) k = assocFind ys k := by
  induction xs with
  | nil => rfl
  | cons p rest ih =>
    obtain ⟨k2, v2⟩ := p
    simp only [assocFind] at h
    by_cases hk : k2 = k
    · rw [if_pos hk] at h; cases h
    · rw [if_neg hk] at h
      simp only [List.cons_append, assocFind, if_neg hk]
      exact ih h

theorem odRemove_length (xs : List (String × CacheEntry)) (k : String)
    (e : CacheEntry) (h : assocFind xs k = some e) :
    (odRemove xs k).length + 1 = xs.length := by
  induction xs with
  | nil => cases h
  | cons p rest ih =>
    obtain ⟨k2, v2⟩ := p
    simp only [assocFind] at h
    by_cases hk : k2 = k
    · simp [odRemove, hk]
    · rw [if_neg hk] at h
      simp only [odRemove, if_neg hk, List.length_cons]
      rw [ih h]

theorem assocFind_odRemove_self (xs : List (String × CacheEntry)) (k : String)
    (hnodup : (xs.map Prod.fst).Nodup) : assocFind (odRemove xs k) k = none := by
  induction xs with
  | nil => rfl
  | cons p rest ih =>
    obtain ⟨k2, v2⟩ := p
    simp only [List.map_cons, List.nodup_cons] at hnodup
    by_cases hk : k2 = k
    · simp only [odRemove, if_pos hk]
      exact assocFind_none_of_not_mem_keys rest k (hk ▸ hnodup.1)
    · simp only [odRemove, if_neg hk, assocFind, if_neg hk]
      exact ih hnodup.2

theorem assocFind_odRemove_none (xs : List (String × CacheEntry)) (k p : String)
    (h : assocFind xs p = none) : assocFind (odRemove xs k) p = none := by
  induction xs with
  | nil => rfl
  | cons q rest ih =>
    obtain ⟨k2, v2⟩ := q
    simp only [assocFind] at h
    by_cases hp : k2 = p
    · rw [if_pos hp] at h; cases h
    · rw [if_neg hp] at h
      by_cases hk : k2 = k
      · simp only [odRemove, if_pos hk]; exact h
      · simp only [odRemove, if_neg hk, assocFind, if_neg hp]
        exact ih h

/- ============================================================ -/
/- Claim C7                                                     -/
/- ============================================================ -/

/-- C7: when the L1 cache holds `max_size` entries (keys distinct, as a Python
dict guarantees), a `put` of a new prompt evicts exactly the
least-recently-accessed entry — the head of the recency order, where a `get`
hit moves an entry to the most-recently-used end — and every other entry
survives: the new L1 list is the old one minus its head plus the new binding
at the tail; in particular (second conjunct) an entry touched by `get` just
before the `put` survives it whenever the cache holds at least two entries. -/
theorem c7_lru_eviction (c : PromptCache) (p r m : String)
    (hnodup : (c.entries.map Prod.fst).Nodup)
    (hfull : c.entries.length = c.max_size)
    (hpos : 0 < c.max_size)
    (hnew : assocFind c.entries p = none) :
    (c.put p r m).entries =
      c.entries.tail ++ [(p, { prompt := p, response := r, model := m })] ∧
    (∀ (k : String) (e : CacheEntry), 2 ≤ c.max_size →
      assocFind c.entries k = some e →
      assocFind (((c.get k).2).put p r m).entries k =
        some { e with hits := e.hits + 1 }) := by
  constructor
  · simp only [PromptCache.put]
    rw [if_pos (by omega)]
    rw [assocPut_append_of_none _ _ _ (assocFind_tail_none _ _ hnew)]
  · intro k e h2 hk
    have hkp : k ≠ p := by
      intro hkp
      rw [hkp, hnew] at hk
      cases hk
    have hget : (c.get k).2 =
        { c with entries := odRemove c.entries k ++ [(k, { e with hits := e.hits + 1 })]
                 l1_hits := c.l1_hits + 1 } := by
      simp only [PromptCache.get, hk]
    rw [hget]
    have hlen : (odRemove c.entries k).length + 1 = c.max_size := by
      rw [odRemove_length c.entries k e hk, hfull]
    cases hodr : odRemove c.entries k with
    | nil => rw [hodr] at hlen; simp at hlen; omega
    | cons q t0 =>
      rw [hodr] at hlen
      simp only [List.length_cons] at hlen
      simp only [PromptCache.put, List.cons_append]
      rw [if_pos (by simp only [List.length_cons, List.length_append]; omega)]
      simp only [List.tail_cons]
      have ht0 : assocFind t0 p = none := by
        have hodp := assocFind_odRemove_none c.entries k p hnew
        rw [hodr] at hodp
        exact assocFind_tail_none _ _ hodp
      have hp1 : assocFind (t0 ++ [(k, { e with hits := e.hits + 1 })]) p = none := by
        rw [assocFind_append_left_none _ _ _ ht0]
        simp only [assocFind]
        rw [if_neg hkp]
      rw [assocPut_append_of_none _ _ _ hp1]
      have htk : assocFind t0 k = none := by
        have hods := assocFind_odRemove_self c.entries k hnodup
        rw [hodr] at hods
        exact assocFind_tail_none _ _ hods
      rw [List.append_assoc, assocFind_append_left_none _ _ _ htk]
      simp [assocFind]

/-- Two resident entries for the C7 witness. -/
def entryA : CacheEntry := { prompt := "a", response := "ra", model := "m1" }

/-- Second resident entry for the C7 witness. -/
def entryB : CacheEntry := { prompt := "b", response := "rb", model := "m1" }

/-- A full two-slot L1 cache: "a" is least recently used, "b" most recent. -/
def sampleCache : PromptCache :=
  { max_size := 2, entries := [("a", entryA), ("b", entryB)] }

/-- Witness for C7: putting the new prompt "c" into the full cache evicts
exactly "a" (the LRU) and keeps "b"; and after a `get "a"` (which moves "a" to
most-recently-used) the same put keeps "a" alive with its hit count bumped. -/
theorem c7_lru_eviction_witness :
    (sampleCache.put "c" "rc" "m2").entries =
      [("b", entryB), ("c", { prompt := "c", response := "rc", model := "m2" })] ∧
    assocFind (((sampleCache.get "a").2).put "c" "rc" "m2").entries "a" =
      some { entryA with hits := entryA.hits + 1 } := by
  have h := c7_lru_eviction sampleCache "c" "rc" "m2" (by decide) rfl (by decide) rfl
  exact ⟨h.1, h.2 "a" entryA (by decide) rfl⟩

/- ============================================================ -/
/- Claim C8                                                     -/
/- ============================================================ -/

/-- A 28800-character prompt: its token estimate 28800 // 4 = 7200 sits
exactly at 90% of the default 8000-token limit. -/
def boundaryPrompt : String := String.mk (List.replicate 28800 (Char.ofNat 97))

theorem boundaryPrompt_length : boundaryPrompt.length = 28800 := by
  show (List.replicate 28800 (Char.ofNat 97)).length = 28800
  exact List.length_replicate _ _

/-- C8 counterexample: for the model `"llama3"` (table limit 8000) and a
28800-character prompt, the estimate is exactly 7200 = 90% of the limit — the
prompt does NOT exceed 90% of the limit, yet the check rejects it, because the
source accepts only estimates strictly below the 90% mark
(`estimated_tokens < limit * 0.9`). -/
theorem c8_counterexample :
    check_context_limit boundaryPrompt "llama3" = false ∧
    ¬ (9 * ((assocFind MODEL_LIMITS "llama3").getD 8000) <
        10 * (boundaryPrompt.length / 4)) := by
  constructor
  · simp [check_context_limit, boundaryPrompt_length, MODEL_LIMITS, assocFind]
  · simp [boundaryPrompt_length, MODEL_LIMITS, assocFind]

/-- C8 (amended): a candidate model is rejected exactly when the prompt's
estimated token count `len(prompt) // 4` REACHES OR EXCEEDS 90% of the model's
limit (models absent from the table use 8000); only an estimate strictly below
the 90% mark is sent to the model. (For every limit in the table and for the
default, `limit * 0.9` is exact in IEEE doubles, so the 90% mark is the
rational `9 * limit / 10` and the comparison is the integer one stated here.) -/
theorem c8_context_limit_boundary (prompt : String) (model : String) :
    check_context_limit prompt model = false ↔
      9 * ((assocFind MODEL_LIMITS model).getD 8000) ≤ 10 * (prompt.length / 4) := by
  simp only [check_context_limit, decide_eq_false_iff_not, Nat.not_lt]

/- ============================================================ -/
/- Claim C6                                                     -/
/- ============================================================ -/

/-- C6 counterexample: with `rule.model = "llama3"` and the fallback chain
`["llama3.2:3b", "llama3.2:3b"]`, the candidate list is
`["llama3", "llama3.2:3b", "llama3.2:3b"]`: the comprehension only drops nulls
and entries equal to `rule.model`, so a model repeated inside the chain
appears twice, contradicting "no model appears twice". -/
theorem c6_counterexample :
    modelsToTry "llama3" [some "llama3.2:3b", some "llama3.2:3b"] =
      ["llama3", "llama3.2:3b", "llama3.2:3b"] ∧
    ¬ (["llama3", "llama3.2:3b", "llama3.2:3b"] : List String).Nodup := by
  constructor
  · rfl
  · decide

/-- C6 (amended): the candidate list is `rule.model` followed by the non-null
fallback-chain entries that differ from `rule.model`, preserving order:
`rule.model` occurs exactly once, every other model occurs exactly as often as
it occurs (non-null) in the fallback chain — duplicates within the chain are
NOT removed — and the tail is an order-preserving sublist of the de-nulled
chain. -/
theorem c6_models_to_try (ruleModel : String)
    (fallback_chain : List (Option String)) :
    (modelsToTry ruleModel fallback_chain).head? = some ruleModel ∧
    (modelsToTry ruleModel fallback_chain).count ruleModel = 1 ∧
    (∀ m : String, m ≠ ruleModel →
      (modelsToTry ruleModel fallback_chain).count m =
        (fallback_chain.filterMap id).count m) ∧
    (modelsToTry ruleModel fallback_chain).tail.Sublist
      (fallback_chain.filterMap id) := by
  refine ⟨rfl, ?_, ?_, ?_⟩
  · simp only [modelsToTry, List.count_cons_self]
    have hz : ((fallback_chain.filterMap id).filter
        (fun m => m ≠ ruleModel)).count ruleModel = 0 := by
      rw [List.count_eq_zero]
      intro hmem
      have := List.of_mem_filter hmem
      simp at this
    omega
  · intro m hm
    simp only [modelsToTry]
    rw [List.count_cons_of_ne hm]
    exact List.count_filter (by simpa using hm)
  · simp only [modelsToTry, List.tail_cons]
    exact List.filter_sublist _

/-- Witness for C6 (amended) at a concrete chain with a null and a repeated
entry: the repeated model keeps both occurrences and the head is rule.model. -/
theorem c6_models_to_try_witness :
    (modelsToTry "llama3" [none, some "deepseek-r1", some "deepseek-r1"]).count
        "deepseek-r1" =
      (([none, some "deepseek-r1", some "deepseek-r1"] :
          List (Option String)).filterMap id).count "deepseek-r1" ∧
    (modelsToTry "llama3" [none, some "deepseek-r1", some "deepseek-r1"]).head? =
      some "llama3" := by
  have h := c6_models_to_try "llama3" [none, some "deepseek-r1", some "deepseek-r1"]
  exact ⟨h.2.2.1 "deepseek-r1" (by decide), h.1⟩

/- ============================================================ -/
/- Helper lemmas: the _call_ollama candidate loop               -/
/- ============================================================ -/

/-- If every candidate before `w` fails (context-rejected or HTTP error), `w`
passes the context check, and `w`'s generate call returns a body with
`response = r`, the loop returns the trimmed `r` — regardless of the error
already remembered. -/
theorem callOllamaLoop_first_success (gen : String → GenOutcome) (prompt : String)
    (pre : List String) (w : String) (rest : List String) (r : String)
    (hpre : ∀ m ∈ pre, check_context_limit prompt m = false ∨
      ∃ msg, gen m = GenOutcome.httpError msg)
    (hw : check_context_limit prompt w = true)
    (hgen : gen w = GenOutcome.ok (some r)) :
    ∀ le : Option String,
      callOllamaLoop gen prompt (pre ++ w :: rest) le = Except.ok (pyStrip r) := by
  induction pre with
  | nil =>
    intro le
    simp only [List.nil_append, callOllamaLoop, hw, if_true, hgen, Option.getD_some]
  | cons m pre ih =>
    intro le
    have hm := hpre m (by simp)
    cases hchk : check_context_limit prompt m with
    | false =>
      simp only [List.cons_append, callOllamaLoop, hchk, Bool.false_eq_true, if_false]
      exact ih (fun m2 hm2 => hpre m2 (by simp [hm2])) le
    | true =>
      rcases hm with hrej | ⟨msg, herr⟩
      · rw [hchk] at hrej; cases hrej
      · simp only [List.cons_append, callOllamaLoop, hchk, if_true, herr]
        exact ih (fun m2 hm2 => hpre m2 (by simp [hm2])) (some msg)

/-- If every candidate is context-rejected, the loop never records an error
and falls through to returning the prompt itself. -/
theorem callOllamaLoop_all_rejected (gen : String → GenOutcome) (prompt : String)
    (models : List String)
    (h : ∀ m ∈ models, check_context_limit prompt m = false) :
    callOllamaLoop gen prompt models none = Except.ok prompt := by
  induction models with
  | nil => rfl
  | cons m ms ih =>
    have hm := h m (by simp)
    simp only [callOllamaLoop, hm, Bool.false_eq_true, if_false]
    exact ih (fun m2 hm2 => h m2 (by simp [hm2]))

/- ============================================================ -/
/- Claim C5                                                     -/
/- ============================================================ -/

/-- An Ollama that fails for every model except `"llama3.2:3b"`, which answers
`" better "`. -/
def fallbackGen : String → GenOutcome :=
  fun m => if m = "llama3.2:3b" then GenOutcome.ok (some " better ")
           else GenOutcome.httpError "boom"

/-- An enabled enhancement rule whose primary model is `"llama3"`. -/
def sampleRule : EnhancementRule := { model := "llama3", system_prompt := "sys" }

/-- C5 counterexample: the primary model `"llama3"` fails, the fallback model
`"llama3.2:3b"` wins (its trimmed response `"better"` is returned and cached),
yet the `model` field of the result names `rule.model = "llama3"`, not the
winning model: `enhance` always returns and caches `rule.model`
(enhance.py lines 153-159), losing which model actually produced the text. -/
theorem c5_counterexample :
    fallbackGen "llama3" = GenOutcome.httpError "boom" ∧
    fallbackGen "llama3.2:3b" = GenOutcome.ok (some " better ") ∧
    (enhance fallbackGen {} sampleRule [some "llama3.2:3b"] "hi").1.enhanced =
      "better" ∧
    (enhance fallbackGen {} sampleRule [some "llama3.2:3b"] "hi").1.model =
      some "llama3" ∧
    some "llama3" ≠ some "llama3.2:3b" := by
  refine ⟨rfl, rfl, ?_, ?_, by decide⟩ <;> decide

/-- C5 (amended): on a cache miss with an enabled rule, when every candidate
before `w` fails (context-rejected or HTTP error), `w` passes the context
check, and `w`'s generate call succeeds with body field `response = r`,
`enhance` caches the trimmed `r` under the original prompt — recorded with
`rule.model`, not `w` — and returns it with `cached = false` and with
`model = rule.model`, even when the winning model `w` is a fallback-chain
model different from `rule.model`. -/
theorem c5_first_winner (gen : String → GenOutcome) (cache : PromptCache)
    (rule : EnhancementRule) (fallback_chain : List (Option String))
    (prompt : String) (pre : List String) (w : String) (rest : List String)
    (r : String)
    (henabled : rule.enabled = true)
    (hmiss : (cache.get prompt).1 = none)
    (hsplit : modelsToTry rule.model fallback_chain = pre ++ w :: rest)
    (hpre : ∀ m ∈ pre, check_context_limit prompt m = false ∨
      ∃ msg, gen m = GenOutcome.httpError msg)
    (hw : check_context_limit prompt w = true)
    (hgen : gen w = GenOutcome.ok (some r)) :
    enhance gen cache rule fallback_chain prompt =
      ({ original := prompt, enhanced := pyStrip r, model := some rule.model
         cached := false },
       ((cache.get prompt).2).put prompt (pyStrip r) rule.model) := by
  have hloop : call_ollama gen prompt rule fallback_chain = Except.ok (pyStrip r) := by
    rw [call_ollama, hsplit]
    exact callOllamaLoop_first_success gen prompt pre w rest r hpre hw hgen none
  rcases hpair : cache.get prompt with ⟨o, c1⟩
  rw [hpair] at hmiss
  simp only at hmiss
  subst hmiss
  simp only [enhance, henabled, reduceCtorEq, if_false, hpair, hloop]

/-- Witness for C5 (amended): the fallback model wins, its trimmed response is
cached and returned with `cached = false` and `model = rule.model`. -/
theorem c5_first_winner_witness :
    enhance fallbackGen {} sampleRule [some "llama3.2:3b"] "hi" =
      ({ original := "hi", enhanced := "better", model := some "llama3"
         cached := false },
       (({} : PromptCache).get "hi").2.put "hi" "better" "llama3") := by
  have h := c5_first_winner fallbackGen {} sampleRule [some "llama3.2:3b"] "hi"
    ["llama3"] "llama3.2:3b" [] " better " rfl rfl rfl
    (by intro m hm; simp at hm; subst hm; exact Or.inr ⟨"boom", rfl⟩) rfl rfl
  exact h.trans (by decide)

/- ============================================================ -/
/- Claim C10                                                    -/
/- ============================================================ -/

/-- C10: when the rule is enabled, the prompt misses the cache, and every
candidate model is context-rejected (the conclusion holds for EVERY `gen`,
so no generate request influences it), `enhance` returns
`{enhanced: original prompt, model: rule.model, cached: false}` with no
error field, and stores the original prompt as its own enhancement in the L1
cache under `rule.model`. -/
theorem c10_all_rejected (gen : String → GenOutcome) (cache : PromptCache)
    (rule : EnhancementRule) (fallback_chain : List (Option String))
    (prompt : String)
    (henabled : rule.enabled = true)
    (hmiss : (cache.get prompt).1 = none)
    (hrej : ∀ m ∈ modelsToTry rule.model fallback_chain,
      check_context_limit prompt m = false) :
    enhance gen cache rule fallback_chain prompt =
      ({ original := prompt, enhanced := prompt, model := some rule.model
         cached := false, error := none },
       ((cache.get prompt).2).put prompt prompt rule.model) := by
  have hloop : call_ollama gen prompt rule fallback_chain = Except.ok prompt :=
    callOllamaLoop_all_rejected gen prompt _ hrej
  rcases hpair : cache.get prompt with ⟨o, c1⟩
  rw [hpair] at hmiss
  simp only at hmiss
  subst hmiss
  simp only [enhance, henabled, reduceCtorEq, if_false, hpair, hloop]

/-- A prompt long enough (28800 characters, estimate 7200 tokens) to be
rejected by every 8000-token-limit candidate. -/
def bigPrompt : String := String.mk (List.replicate 28800 (Char.ofNat 98))

theorem bigPrompt_length : bigPrompt.length = 28800 := by
  show (List.replicate 28800 (Char.ofNat 98)).length = 28800
  exact List.length_replicate _ _

/-- Witness for C10: with candidates `"llama3"` and `"nomic-embed-text"`
(both limited to 8000 tokens) and the 28800-character prompt, every candidate
is rejected and `enhance` degrades to the original prompt, cached under
`rule.model`, with no error. -/
theorem c10_all_rejected_witness :
    enhance fallbackGen {} sampleRule [some "nomic-embed-text"] bigPrompt =
      ({ original := bigPrompt, enhanced := bigPrompt, model := some "llama3"
         cached := false, error := none },
       (({} : PromptCache).get bigPrompt).2.put bigPrompt bigPrompt "llama3") := by
  have hrej : ∀ m ∈ modelsToTry "llama3" [some "nomic-embed-text"],
      check_context_limit bigPrompt m = false := by
    intro m hm
    have hmm : m = "llama3" ∨ m = "nomic-embed-text" := by
      simpa [modelsToTry] using hm
    rcases hmm with h | h <;> subst h <;>
      simp [check_context_limit, bigPrompt_length, MODEL_LIMITS, assocFind]
  exact c10_all_rejected fallbackGen {} sampleRule [some "nomic-embed-text"]
    bigPrompt rfl rfl hrej
